import Mathlib

/-!
Verification development for the financial-chatbot repository (src/main.py).

The Python source is shallowly embedded: pure data manipulation becomes Lean
functions; every external effect (the yfinance market-data provider, the
OpenAI assistant service, the json library) is modelled as an explicit
oracle parameter whose failures are `Except.error` values, mirroring the
Python exceptions the source code catches.  The run-loop of
`chat_with_assistant` is driven by a finite script of remote responses, one
consumed per remote call inside the loop, so the (possibly unbounded)
polling loop becomes structural recursion on the script.
-/

/-! ## JSON values (the payloads handled by json.dumps / json.loads) -/

/-- JSON values as produced by the Python dict literals in main.py.
Numbers are modelled as rationals (Python floats are abstracted to exact
arithmetic; no claim depends on binary rounding of provider data). -/
inductive Json where
  | jnull
  | jbool (b : Bool)
  | jnum (q : ℚ)
  | jstr (s : String)
  | jarr (elems : List Json)
  | jobj (fields : List (String × Json))

mutual

/-- Decidable equality of JSON values (the automatic derivation does not
handle the nesting through lists). -/
def Json.decEq : (a b : Json) → Decidable (a = b)
  | .jnull, .jnull => .isTrue rfl
  | .jbool a, .jbool b =>
      if h : a = b then .isTrue (congrArg Json.jbool h)
      else .isFalse (fun hh => h (by injection hh))
  | .jnum a, .jnum b =>
      if h : a = b then .isTrue (congrArg Json.jnum h)
      else .isFalse (fun hh => h (by injection hh))
  | .jstr a, .jstr b =>
      if h : a = b then .isTrue (congrArg Json.jstr h)
      else .isFalse (fun hh => h (by injection hh))
  | .jarr xs, .jarr ys =>
      match Json.decEqArr xs ys with
      | .isTrue h => .isTrue (congrArg Json.jarr h)
      | .isFalse h => .isFalse (fun hh => h (by injection hh))
  | .jobj fs, .jobj gs =>
      match Json.decEqObj fs gs with
      | .isTrue h => .isTrue (congrArg Json.jobj h)
      | .isFalse h => .isFalse (fun hh => h (by injection hh))
  | .jnull, .jbool _ => .isFalse (fun h => Json.noConfusion h)
  | .jnull, .jnum _ => .isFalse (fun h => Json.noConfusion h)
  | .jnull, .jstr _ => .isFalse (fun h => Json.noConfusion h)
  | .jnull, .jarr _ => .isFalse (fun h => Json.noConfusion h)
  | .jnull, .jobj _ => .isFalse (fun h => Json.noConfusion h)
  | .jbool _, .jnull => .isFalse (fun h => Json.noConfusion h)
  | .jbool _, .jnum _ => .isFalse (fun h => Json.noConfusion h)
  | .jbool _, .jstr _ => .isFalse (fun h => Json.noConfusion h)
  | .jbool _, .jarr _ => .isFalse (fun h => Json.noConfusion h)
  | .jbool _, .jobj _ => .isFalse (fun h => Json.noConfusion h)
  | .jnum _, .jnull => .isFalse (fun h => Json.noConfusion h)
  | .jnum _, .jbool _ => .isFalse (fun h => Json.noConfusion h)
  | .jnum _, .jstr _ => .isFalse (fun h => Json.noConfusion h)
  | .jnum _, .jarr _ => .isFalse (fun h => Json.noConfusion h)
  | .jnum _, .jobj _ => .isFalse (fun h => Json.noConfusion h)
  | .jstr _, .jnull => .isFalse (fun h => Json.noConfusion h)
  | .jstr _, .jbool _ => .isFalse (fun h => Json.noConfusion h)
  | .jstr _, .jnum _ => .isFalse (fun h => Json.noConfusion h)
  | .jstr _, .jarr _ => .isFalse (fun h => Json.noConfusion h)
  | .jstr _, .jobj _ => .isFalse (fun h => Json.noConfusion h)
  | .jarr _, .jnull => .isFalse (fun h => Json.noConfusion h)
  | .jarr _, .jbool _ => .isFalse (fun h => Json.noConfusion h)
  | .jarr _, .jnum _ => .isFalse (fun h => Json.noConfusion h)
  | .jarr _, .jstr _ => .isFalse (fun h => Json.noConfusion h)
  | .jarr _, .jobj _ => .isFalse (fun h => Json.noConfusion h)
  | .jobj _, .jnull => .isFalse (fun h => Json.noConfusion h)
  | .jobj _, .jbool _ => .isFalse (fun h => Json.noConfusion h)
  | .jobj _, .jnum _ => .isFalse (fun h => Json.noConfusion h)
  | .jobj _, .jstr _ => .isFalse (fun h => Json.noConfusion h)
  | .jobj _, .jarr _ => .isFalse (fun h => Json.noConfusion h)

/-- Decidable equality of JSON arrays. -/
def Json.decEqArr : (a b : List Json) → Decidable (a = b)
  | [], [] => .isTrue rfl
  | [], _ :: _ => .isFalse (fun h => List.noConfusion h)
  | _ :: _, [] => .isFalse (fun h => List.noConfusion h)
  | x :: xs, y :: ys =>
      match Json.decEq x y with
      | .isFalse h => .isFalse (fun hh => h (by injection hh))
      | .isTrue h1 =>
        match Json.decEqArr xs ys with
        | .isTrue h2 => .isTrue (by rw [h1, h2])
        | .isFalse h2 => .isFalse (fun hh => h2 (by injection hh))

/-- Decidable equality of JSON object field lists. -/
def Json.decEqObj : (a b : List (String × Json)) → Decidable (a = b)
  | [], [] => .isTrue rfl
  | [], _ :: _ => .isFalse (fun h => List.noConfusion h)
  | _ :: _, [] => .isFalse (fun h => List.noConfusion h)
  | (k1, v1) :: xs, (k2, v2) :: ys =>
      if hk : k1 = k2 then
        match Json.decEq v1 v2 with
        | .isFalse h => .isFalse (fun hh => by
            apply h
            have := (List.cons.injEq _ _ _ _).mp hh
            exact congrArg Prod.snd this.1)
        | .isTrue h1 =>
          match Json.decEqObj xs ys with
          | .isTrue h2 => .isTrue (by rw [hk, h1, h2])
          | .isFalse h2 => .isFalse (fun hh => h2 (by injection hh))
      else
        .isFalse (fun hh => by
          apply hk
          have := (List.cons.injEq _ _ _ _).mp hh
          exact congrArg Prod.fst this.1)

end

instance : DecidableEq Json := Json.decEq

/-- Escape of one character inside a JSON string literal (backslash and
double quote, the only escapes the strings in this program can need). -/
def jsonEscapeChar (c : Char) : String :=
  if c = '\\' then "\\\\" else if c = '\"' then "\\\"" else String.singleton c

/-- Escape of a JSON string body. -/
def jsonEscape (s : String) : String :=
  String.join (s.data.map jsonEscapeChar)

/-- A JSON string literal with quotes, as json.dumps renders keys and
string values. -/
def jsonStr (s : String) : String :=
  "\"" ++ jsonEscape s ++ "\""

/-- Rendering of a JSON number.  the Python repr of floats is abstracted by
the ToString instance of the rationals; no claim observes this text. -/
def jsonNum (q : ℚ) : String :=
  if q.den = 1 then toString q.num else toString q

mutual

/-- json.dumps with the Python default separators (a comma-space between
items, a colon-space after keys). -/
def Json.dumps : Json → String
  | .jnull => "null"
  | .jbool true => "true"
  | .jbool false => "false"
  | .jnum q => jsonNum q
  | .jstr s => jsonStr s
  | .jarr xs => "[" ++ Json.dumpsArr xs ++ "]"
  | .jobj fs => "\x7b" ++ Json.dumpsObj fs ++ "\x7d"

/-- Comma-separated rendering of a JSON array body. -/
def Json.dumpsArr : List Json → String
  | [] => ""
  | [x] => Json.dumps x
  | x :: xs => Json.dumps x ++ ", " ++ Json.dumpsArr xs

/-- Comma-separated rendering of a JSON object body. -/
def Json.dumpsObj : List (String × Json) → String
  | [] => ""
  | [kv] => jsonStr kv.1 ++ ": " ++ Json.dumps kv.2
  | kv :: kvs => jsonStr kv.1 ++ ": " ++ Json.dumps kv.2 ++ ", " ++ Json.dumpsObj kvs

end

/-! ## Python round(x, 2) -/

/-- The Python round-half-to-even on an exact rational, computed on the
numerator and denominator: f is the floor, rem/den the fractional part,
and the tie (fraction exactly one half) goes to the even neighbour. -/
def roundHalfEven (q : ℚ) : ℤ :=
  let f := q.num / (q.den : ℤ)
  let rem := q.num % (q.den : ℤ)
  if 2 * rem < (q.den : ℤ) then f
  else if (q.den : ℤ) < 2 * rem then f + 1
  else if f % 2 = 0 then f else f + 1

/-- round(x, 2): round to two decimal places, ties to even. -/
def round2 (q : ℚ) : ℚ :=
  (roundHalfEven (100 * q) : ℚ) / 100

/-! ## yfinance oracle and get_stock_data (main.py lines 32-56) -/

/-- Python str.upper for the symbol, written by structural recursion over
the characters so that it evaluates (String.toUpper is extensionally the
same map but is defined by position recursion that does not reduce). -/
def pyUpper (s : String) : String := String.mk (s.data.map Char.toUpper)

/-- The fields of ticker.info that get_stock_data reads; a missing key
(info.get returning None) is modelled by none. -/
structure TickerInfo where
  longName : Option String
  marketCap : Option ℚ
  trailingPE : Option ℚ
  fiftyTwoWeekHigh : Option ℚ
  fiftyTwoWeekLow : Option ℚ
  volume : Option ℚ
deriving DecidableEq

/-- What yfinance yields for one symbol: the info mapping and the Close
column of the requested history, oldest first. -/
structure TickerData where
  info : TickerInfo
  hist : List ℚ
deriving DecidableEq

/-- A possibly missing numeric info field as it lands in the result dict
(None becomes JSON null). -/
def optNum : Option ℚ → Json
  | none => .jnull
  | some q => .jnum q

/-- get_stock_data: the yfinance interaction is the oracle yf (an
Except.error models any exception raised by Ticker, .info or .history,
caught by the except clause of the source). -/
def get_stock_data (yf : String → Except String TickerData) (symbol : String) : Json :=
  match yf (pyUpper symbol) with
  | .error e =>
      .jobj [("error", .jstr ("Could not fetch data for " ++ symbol ++ ": " ++ e))]
  | .ok t =>
      match t.hist.getLast? with
      | none => .jobj [("error", .jstr ("No data available for " ++ symbol))]
      | some current_price =>
          .jobj [("symbol", .jstr (pyUpper symbol)),
                 ("current_price", .jnum (round2 current_price)),
                 ("company_name", .jstr (t.info.longName.getD symbol)),
                 ("market_cap", optNum t.info.marketCap),
                 ("pe_ratio", optNum t.info.trailingPE),
                 ("52_week_high", optNum t.info.fiftyTwoWeekHigh),
                 ("52_week_low", optNum t.info.fiftyTwoWeekLow),
                 ("volume", optNum t.info.volume)]

/-! ## get_market_overview (main.py lines 59-109) -/

/-- The fixed curated mapping of display names to index symbols. -/
def indices : List (String × String) :=
  [("S&P 500", "^GSPC"),
   ("NASDAQ", "^IXIC"),
   ("NVIDIA", "NVDA"),
   ("Russell 2000", "^RUT"),
   ("Bitcoin", "BTC-USD"),
   ("Ethereum", "ETH-USD"),
   ("Crude Oil", "CL=F"),
   ("Gold", "GC=F"),
   ("Silver", "SI=F"),
   ("FTSE 100", "^FTSE"),
   ("DAX", "^GDAXI"),
   ("Nikkei 225", "^N225"),
   ("Hang Seng", "^HSI"),
   ("S&P/TSX Composite", "^GSPTSE"),
   ("Euro Stoxx 50", "^STOXX50E"),
   ("CAC 40", "^FCHI"),
   ("ASX 200", "^AXJO"),
   ("Bovespa", "^BVSP"),
   ("Sensex", "^BSESN"),
   ("Swiss Market Index", "^SSMI"),
   ("KOSPI", "^KS11"),
   ("Nifty 50", "^NSEI"),
   ("Jakarta Composite", "^JKSE"),
   ("Straits Times", "^STI")]

/-- The body of the for loop of get_market_overview for one index: none
when the fetched history is empty (the source then stores nothing for that
name), an error object when an exception is raised for that index (the
fetch failing, or the change-percent division hitting a zero previous
close, the Python ZeroDivisionError). -/
def overviewRow (yf : String → Except String (List ℚ)) (name symbol : String) :
    Option (String × Json) :=
  match yf symbol with
  | .error e => some (name, .jobj [("error", .jstr e)])
  | .ok hist =>
      match hist.getLast? with
      | none => none
      | some current =>
          let prev := if 1 < hist.length then (hist[hist.length - 2]?).getD current
                      else current
          if prev = 0 then
            some (name, .jobj [("error", .jstr "float division by zero")])
          else
            let change := current - prev
            let change_pct := change / prev * 100
            some (name, .jobj [("current", .jnum (round2 current)),
                               ("change", .jnum (round2 change)),
                               ("change_percent", .jnum (round2 change_pct))])

/-- get_market_overview: iterate the curated indices, accumulating the
per-index rows (Python dict insertion order; all names are distinct). -/
def get_market_overview (yf : String → Except String (List ℚ)) :
    List (String × Json) :=
  indices.filterMap (fun p => overviewRow yf p.1 p.2)

/-! ## text_to_speech input preprocessing (main.py lines 172-186) -/

/-- The text actually handed to the speech-synthesis call: inputs longer
than 4000 characters are cut to their first 4000 characters plus an
ellipsis marker. -/
def text_to_speech (text : String) : String :=
  if 4000 < text.length then text.take 4000 ++ "..." else text

/-! ## Run-loop data model (main.py lines 189-256) -/

/-- The run statuses of the remote assistant service; statuses outside the
documented vocabulary of the service are carried verbatim. -/
inductive RunStatus where
  | queued
  | in_progress
  | requires_action
  | completed
  | failed
  | cancelled
  | expired
  | other (s : String)
deriving DecidableEq

/-- The textual form of a status, as interpolated into the error answer. -/
def RunStatus.toStr : RunStatus → String
  | .queued => "queued"
  | .in_progress => "in_progress"
  | .requires_action => "requires_action"
  | .completed => "completed"
  | .failed => "failed"
  | .cancelled => "cancelled"
  | .expired => "expired"
  | .other s => s

/-- One pending tool call of a requires_action run:
tool_call.id, tool_call.function.name, tool_call.function.arguments. -/
structure ToolCall where
  id : String
  fname : String
  arguments : String
deriving DecidableEq

/-- A run object as returned by the remote service; tool_calls is
run.required_action.submit_tool_outputs.tool_calls, meaningful while the
status is requires_action. -/
structure RunObj where
  id : String
  status : RunStatus
  tool_calls : List ToolCall
deriving DecidableEq

/-- One entry of the submitted tool_outputs batch. -/
structure ToolOutput where
  tool_call_id : String
  output : String
deriving DecidableEq

/-- Observable events of one chat_with_assistant call, in order: thread
creation, sleeping, re-fetching the run, invoking a local tool handler,
submitting a batch of tool outputs, listing the messages. -/
inductive Event where
  | createThreadEv
  | sleepEv (units : ℕ)
  | retrieveEv
  | handleEv (fname : String) (callId : String)
  | submitEv (outs : List ToolOutput)
  | listEv
deriving DecidableEq

/-- The environment of one chat_with_assistant call: the json library and
the yfinance oracles used by the tool handlers, plus the remote assistant
service.  Every operation that can raise returns Except; script is the
sequence of remote responses consumed by the polling loop, one per
runs.submit_tool_outputs or runs.retrieve call, so that an arbitrary
finite observation of the remote service is one environment. -/
structure Env where
  loads : String → Except String Json
  stock : String → Except String TickerData
  market : String → Except String (List ℚ)
  threads_create : Except String String
  messages_create : String → String → Except String Unit
  runs_create : String → String → Except String RunObj
  script : List (Except String RunObj)
  messages_list : String → Except String (List String)

/-- handle_function_call (main.py lines 189-202): dispatch on the function
name; its try/except turns any exception of the body into an error JSON.
The only body exceptions possible here arise from arguments.get("symbol")
on a payload that is not an object, or from a non-string symbol value
(in the source the latter surfaces inside the except clause of get_stock_data as
an error JSON as well); both are handled-error JSON payloads. -/
def handle_function_call (env : Env) (function_name : String) (arguments : Json) : String :=
  if function_name = "get_stock_data" then
    match arguments with
    | .jobj fs =>
        match (fs.lookup "symbol").getD (.jstr "") with
        | .jstr symbol => (get_stock_data env.stock symbol).dumps
        | _ => (Json.jobj [("error", Json.jstr "AttributeError")]).dumps
    | _ => (Json.jobj [("error", Json.jstr "AttributeError")]).dumps
  else if function_name = "get_market_overview" then
    (Json.jobj (get_market_overview env.market)).dumps
  else
    (Json.jobj [("error", Json.jstr "Function not implemented")]).dumps

/-- The for loop over tool_calls (main.py lines 230-237): parse each
arguments of each call with json.loads, run the handler, and append an
output entry for the id of the call.  A json.loads failure is an uncaught exception:
the loop stops there and the error propagates (Except.error); the handler
invocations already performed are recorded as events. -/
def buildOutputs (env : Env) : List ToolCall → List Event × Except String (List ToolOutput)
  | [] => ([], .ok [])
  | tc :: rest =>
    match env.loads tc.arguments with
    | .error e => ([], .error e)
    | .ok args =>
        let output := handle_function_call env tc.fname args
        let r := buildOutputs env rest
        (.handleEv tc.fname tc.id :: r.1,
         r.2.map (fun outs => { tool_call_id := tc.id, output := output } :: outs))

/-- How the while loop of chat_with_assistant ends: it left the loop with
a terminal run, an exception escaped, or the scripted remote responses
were exhausted while the run was still active (the observation was cut
off; the real loop would keep polling). -/
inductive LoopEnd where
  | finished (r : RunObj)
  | raised (e : String)
  | starved
deriving DecidableEq

/-- The while loop (main.py lines 225-246).  While the status is queued,
in_progress or requires_action: on requires_action build the batch of
tool outputs and submit it, the response becoming the current run; else
sleep one unit and re-fetch the run.  Each remote call consumes the head
of the script; recursion is structural on the script, so the empty-script
cut-off is spelled out in its own pattern. -/
def runLoop (env : Env) : RunObj → List (Except String RunObj) → List Event × LoopEnd
  | run, [] =>
    if run.status = .queued ∨ run.status = .in_progress ∨ run.status = .requires_action then
      if run.status = .requires_action then
        match buildOutputs env run.tool_calls with
        | (evs, .error e) => (evs, .raised e)
        | (evs, .ok outs) => (evs ++ [.submitEv outs], .starved)
      else ([.sleepEv 1, .retrieveEv], .starved)
    else ([], .finished run)
  | run, resp :: rest =>
    if run.status = .queued ∨ run.status = .in_progress ∨ run.status = .requires_action then
      if run.status = .requires_action then
        match buildOutputs env run.tool_calls with
        | (evs, .error e) => (evs, .raised e)
        | (evs, .ok outs) =>
          match resp with
          | .error e => (evs ++ [.submitEv outs], .raised e)
          | .ok run2 =>
            let r := runLoop env run2 rest
            (evs ++ .submitEv outs :: r.1, r.2)
      else
        match resp with
        | .error e => ([.sleepEv 1, .retrieveEv], .raised e)
        | .ok run2 =>
          let r := runLoop env run2 rest
          (.sleepEv 1 :: .retrieveEv :: r.1, r.2)
    else ([], .finished run)

/-- How the body of chat_with_assistant (inside its try) ends: a normal
return (response, thread_id), an exception carrying the thread_id local
at the moment it was raised, or a cut-off observation. -/
inductive InnerRes where
  | ans (resp : String) (tid : String)
  | raisedI (e : String) (tid : Option String)
  | runningI
deriving DecidableEq

/-- Python truthiness of the optional thread id: None and the empty
string are falsy (the source tests if not thread_id). -/
def isFalsy : Option String → Bool
  | none => true
  | some s => s.isEmpty

/-- The body of chat_with_assistant after the thread id is known
(main.py lines 217-253): post the user message, create the run, drive the
loop, and on completion read the newest message text (an empty message
log raises IndexError, here the literal Python message). -/
def chatBody (env : Env) (assistant_id message tid : String) (evs0 : List Event) :
    InnerRes × List Event :=
  match env.messages_create tid message with
  | .error e => (.raisedI e (some tid), evs0)
  | .ok _ =>
    match env.runs_create tid assistant_id with
    | .error e => (.raisedI e (some tid), evs0)
    | .ok run =>
      let lr := runLoop env run env.script
      match lr.2 with
      | .raised e => (.raisedI e (some tid), evs0 ++ lr.1)
      | .starved => (.runningI, evs0 ++ lr.1)
      | .finished r =>
        if r.status = .completed then
          match env.messages_list tid with
          | .error e => (.raisedI e (some tid), evs0 ++ lr.1 ++ [.listEv])
          | .ok [] => (.raisedI "list index out of range" (some tid), evs0 ++ lr.1 ++ [.listEv])
          | .ok (m :: _) => (.ans m tid, evs0 ++ lr.1 ++ [.listEv])
        else
          (.ans ("Error: Run failed with status " ++ r.status.toStr) tid, evs0 ++ lr.1)

/-- The try body of chat_with_assistant (main.py lines 212-253) with its
event trace: create a thread when the incoming id is falsy, then run the
body. -/
def chatInner (env : Env) (assistant_id message : String) (thread_id : Option String) :
    InnerRes × List Event :=
  if isFalsy thread_id then
    match env.threads_create with
    | .error e => (.raisedI e thread_id, [.createThreadEv])
    | .ok tid => chatBody env assistant_id message tid [.createThreadEv]
  else
    chatBody env assistant_id message (thread_id.getD "") []

/-- What the caller of chat_with_assistant observes: a returned
(response, thread_id) pair, or no return yet (the scripted observation
ended while the run was still being polled). -/
inductive ChatOutcome where
  | returns (p : String × Option String)
  | running
deriving DecidableEq

/-- chat_with_assistant (main.py lines 205-256): the except clause turns
any exception raised by the body into the pair
(Error: message, thread_id as of the raise). -/
def chat_with_assistant (env : Env) (assistant_id message : String)
    (thread_id : Option String) : ChatOutcome :=
  match (chatInner env assistant_id message thread_id).1 with
  | .ans resp tid => .returns (resp, some tid)
  | .raisedI e tid => .returns ("Error: " ++ e, tid)
  | .runningI => .running

/-! ## Concrete instances used by the closed witness statements -/

/-- A completed run with no pending calls. -/
def runCompletedW : RunObj := { id := "r9", status := .completed, tool_calls := [] }

/-- A run that is failed immediately after creation. -/
def runFailedW : RunObj := { id := "r9", status := .failed, tool_calls := [] }

/-- A pending call to an unregistered tool, with well-formed arguments. -/
def tcUnknownW : ToolCall := { id := "c1", fname := "get_weather", arguments := "\x7b\x7d" }

/-- A pending call whose arguments payload is malformed JSON. -/
def tcBadW : ToolCall := { id := "c1", fname := "get_stock_data", arguments := "oops" }

/-- A pending stock call with an empty-object arguments payload. -/
def tcStockW : ToolCall := { id := "c2", fname := "get_stock_data", arguments := "\x7b\x7d" }

/-- A toy json.loads: the empty object parses, everything else is a parse
error with the CPython message for it. -/
def loadsW : String → Except String Json := fun s =>
  if s = "\x7b\x7d" then .ok (.jobj []) else .error "Expecting value: line 1 column 1 (char 0)"

/-- A base environment: thread creation yields t1, posts succeed, the
created run is already completed, one scripted response, a one-message
log, and a market-data provider that is down. -/
def baseEnvW : Env :=
  { loads := loadsW
    stock := fun _ => .error "net down"
    market := fun _ => .error "net down"
    threads_create := .ok "t1"
    messages_create := fun _ _ => .ok ()
    runs_create := fun _ _ => .ok runCompletedW
    script := [.ok runCompletedW]
    messages_list := fun _ => .ok ["the answer"] }

/-- A requires_action run with a single malformed pending call. -/
def runBadW : RunObj := { id := "r0", status := .requires_action, tool_calls := [tcBadW] }

/-- A requires_action run with a single unknown-tool pending call. -/
def runUnknownW : RunObj := { id := "r0", status := .requires_action, tool_calls := [tcUnknownW] }

/-- Environment whose created run requires action on one malformed call. -/
def envMalformedW : Env :=
  { baseEnvW with runs_create := fun _ _ => .ok runBadW }

/-- Environment whose created run requires action on one unknown tool. -/
def envUnknownW : Env :=
  { baseEnvW with runs_create := fun _ _ => .ok runUnknownW }

/-- Environment whose created run is failed immediately. -/
def envFailedW : Env :=
  { baseEnvW with runs_create := fun _ _ => .ok runFailedW }

/-- Environment where posting the user message raises. -/
def envMsgFailW : Env :=
  { baseEnvW with messages_create := fun _ _ => .error "boom" }

/-- A requires_action run with two pending calls. -/
def runTwoCallsW : RunObj :=
  { id := "r0", status := .requires_action, tool_calls := [tcUnknownW, tcStockW] }

/-- Environment whose created run requires action on two pending calls. -/
def envTwoW : Env :=
  { baseEnvW with runs_create := fun _ _ => .ok runTwoCallsW }

/-- A queued run with no pending calls. -/
def runQueuedW : RunObj := { id := "r9", status := .queued, tool_calls := [] }

/-- A 4001-character text, one character beyond the speech limit. -/
def bigTextW : String := String.mk (List.replicate 4001 'a')

/-- A market-data oracle: empty history for the S&P, a fetch failure for
the NASDAQ, a one-day history for NVIDIA, everything else two days. -/
def yfOverviewW : String → Except String (List ℚ) := fun s =>
  if s = "^GSPC" then .ok []
  else if s = "^IXIC" then .error "boom"
  else if s = "NVDA" then .ok [10]
  else .ok [4, 6]

/-- Ticker info for the AAPL witness. -/
def infoAaplW : TickerInfo :=
  { longName := some "Apple Inc.", marketCap := none, trailingPE := none,
    fiftyTwoWeekHigh := none, fiftyTwoWeekLow := none, volume := none }

/-- Ticker data for the AAPL witness: an empty price history. -/
def tdAaplW : TickerData := { info := infoAaplW, hist := [] }

/-- A stock oracle with data only for AAPL, whose history is empty. -/
def yfStockW : String → Except String TickerData := fun s =>
  if s = "AAPL" then .ok tdAaplW else .error "no such ticker"

/-! ## Claims about the market-data gateway and speech preprocessing -/

/-- C8: text longer than 4000 characters passed to speech synthesis is
truncated to its first 4000 characters plus a truncation marker before
the call; text of 4000 characters or fewer is passed unchanged. -/
theorem tts_truncation (t : String) :
    (4000 < t.length → text_to_speech t = t.take 4000 ++ "...") ∧
    (t.length ≤ 4000 → text_to_speech t = t) := by
  constructor
  · intro h
    simp only [text_to_speech, if_pos h]
  · intro h
    simp only [text_to_speech]
    rw [if_neg (by omega)]

/-- Witness for tts_truncation at a 4001-character input and at a short
input. -/
theorem tts_truncation_witness :
    text_to_speech bigTextW = bigTextW.take 4000 ++ "..." ∧ text_to_speech "hi" = "hi" := by
  constructor
  · apply (tts_truncation bigTextW).1
    have h : bigTextW.length = 4001 := by
      rw [show bigTextW.length = (List.replicate 4001 'a').length from rfl,
        List.length_replicate]
    omega
  · exact (tts_truncation "hi").2 (by decide)

/-- C9: for every symbol and every provider behavior, get_stock_data
returns either the structured record (symbol, current price, company
name, and possibly-null market cap, PE ratio, 52-week high and low,
volume) or an error object, never an exception; in particular an empty
price history yields the no-data error record. -/
theorem quote_shape (yf : String → Except String TickerData) (s : String) :
    ((∃ m, get_stock_data yf s = .jobj [("error", .jstr m)]) ∨
     (∃ cp cn mc pe hi lo vol, get_stock_data yf s =
        .jobj [("symbol", .jstr (pyUpper s)), ("current_price", .jnum cp),
               ("company_name", .jstr cn), ("market_cap", mc), ("pe_ratio", pe),
               ("52_week_high", hi), ("52_week_low", lo), ("volume", vol)])) ∧
    (∀ t, yf (pyUpper s) = .ok t → t.hist = [] →
       get_stock_data yf s = .jobj [("error", .jstr ("No data available for " ++ s))]) := by
  constructor
  · cases h : yf (pyUpper s) with
    | error e =>
        exact Or.inl ⟨"Could not fetch data for " ++ s ++ ": " ++ e,
          by simp [get_stock_data, h]⟩
    | ok t =>
      cases hl : t.hist.getLast? with
      | none =>
          exact Or.inl ⟨"No data available for " ++ s, by simp [get_stock_data, h, hl]⟩
      | some cp =>
          exact Or.inr ⟨round2 cp, t.info.longName.getD s, optNum t.info.marketCap,
            optNum t.info.trailingPE, optNum t.info.fiftyTwoWeekHigh,
            optNum t.info.fiftyTwoWeekLow, optNum t.info.volume,
            by simp [get_stock_data, h, hl]⟩
  · intro t ht he
    simp [get_stock_data, ht, he]

/-- Witness for quote_shape: the AAPL oracle with an empty history hits
the no-data error record. -/
theorem quote_shape_witness :
    get_stock_data yfStockW "AAPL" =
      .jobj [("error", .jstr ("No data available for " ++ "AAPL"))] :=
  (quote_shape yfStockW "AAPL").2 tdAaplW (by rfl) rfl

/-- round(0, 2) is 0. -/
theorem round2_zero : round2 0 = 0 := by
  norm_num [round2, roundHalfEven]

/-- An overview row is always keyed by its own index name. -/
theorem overviewRow_key (yf : String → Except String (List ℚ)) (n sym : String)
    (r : String × Json) (h : overviewRow yf n sym = some r) : r.1 = n := by
  unfold overviewRow at h
  dsimp only at h
  repeat' split at h
  all_goals first
    | (injection h with h; subst h; rfl)
    | exact absurd h (by simp)

/-- Looking up a name absent from an index list finds nothing among its
overview rows. -/
theorem lookup_overview_not_mem (yf : String → Except String (List ℚ)) :
    ∀ (l : List (String × String)) (name : String), name ∉ l.map Prod.fst →
      (l.filterMap (fun p => overviewRow yf p.1 p.2)).lookup name = none := by
  intro l
  induction l with
  | nil => simp
  | cons p t ih =>
    intro name hn
    rw [List.map_cons, List.mem_cons] at hn
    push_neg at hn
    cases hrow : overviewRow yf p.1 p.2 with
    | none => simpa [List.filterMap_cons, hrow] using ih name hn.2
    | some r =>
      obtain ⟨k, v⟩ := r
      have hk : k = p.1 := overviewRow_key yf p.1 p.2 (k, v) hrow
      subst hk
      simp only [List.filterMap_cons, hrow, List.lookup]
      rw [show (name == p.1) = false from beq_eq_false_iff_ne.mpr hn.1]
      exact ih name hn.2

/-- With pairwise distinct index names, the lookup of one curated name in
the overview is exactly the row of that name. -/
theorem lookup_overview_mem (yf : String → Except String (List ℚ)) :
    ∀ (l : List (String × String)), (l.map Prod.fst).Nodup →
      ∀ name sym, (name, sym) ∈ l →
      (l.filterMap (fun p => overviewRow yf p.1 p.2)).lookup name =
        (overviewRow yf name sym).map Prod.snd := by
  intro l
  induction l with
  | nil => simp
  | cons p t ih =>
    intro hnd name sym hmem
    rw [List.map_cons, List.nodup_cons] at hnd
    rcases List.mem_cons.mp hmem with heq | hmem'
    · have hp : p = (name, sym) := heq.symm
      subst hp
      cases hrow : overviewRow yf name sym with
      | none =>
        simp only [List.filterMap_cons, hrow, Option.map_none']
        exact lookup_overview_not_mem yf t name hnd.1
      | some r =>
        obtain ⟨k, v⟩ := r
        have hk : k = name := overviewRow_key yf name sym (k, v) hrow
        subst hk
        simp [List.filterMap_cons, hrow, List.lookup]
    · have hne : ¬ name = p.1 := by
        intro hcontra
        exact hnd.1 (hcontra ▸ (List.mem_map.mpr ⟨(name, sym), hmem', rfl⟩))
      cases hrow : overviewRow yf p.1 p.2 with
      | none =>
        simpa [List.filterMap_cons, hrow] using ih hnd.2 name sym hmem'
      | some r =>
        obtain ⟨k, v⟩ := r
        have hk : k = p.1 := overviewRow_key yf p.1 p.2 (k, v) hrow
        subst hk
        simp only [List.filterMap_cons, hrow, List.lookup]
        rw [show (name == p.1) = false from beq_eq_false_iff_ne.mpr hne]
        exact ih hnd.2 name sym hmem'

/-- The curated index names are pairwise distinct. -/
theorem indices_names_nodup : (indices.map Prod.fst).Nodup := by decide

/-- C10: an index with empty fetched history is silently omitted from the
overview (so the result can be smaller than the 24 curated symbols);
every present entry is a current/change/change_percent record of values
rounded to two decimals or an error record from a per-index exception;
and a one-day history yields change and change percent exactly 0. -/
theorem overview_entries (yf : String → Except String (List ℚ)) :
    indices.length = 24 ∧
    (get_market_overview yf).length ≤ 24 ∧
    (∀ name sym, (name, sym) ∈ indices → yf sym = .ok [] →
       (get_market_overview yf).lookup name = none) ∧
    (∀ name sym e, (name, sym) ∈ indices → yf sym = .error e →
       (get_market_overview yf).lookup name = some (.jobj [("error", .jstr e)])) ∧
    (∀ name j, (name, j) ∈ get_market_overview yf →
       (∃ e, j = .jobj [("error", .jstr e)]) ∨
       (∃ c p, j = .jobj [("current", .jnum (round2 c)), ("change", .jnum (round2 (c - p))),
                          ("change_percent", .jnum (round2 ((c - p) / p * 100)))])) ∧
    (∀ name sym c, (name, sym) ∈ indices → yf sym = .ok [c] → c ≠ 0 →
       (get_market_overview yf).lookup name =
         some (.jobj [("current", .jnum (round2 c)), ("change", .jnum 0),
                      ("change_percent", .jnum 0)])) := by
  refine ⟨rfl, ?_, ?_, ?_, ?_, ?_⟩
  · simpa [get_market_overview] using
      List.length_filterMap_le (fun p => overviewRow yf p.1 p.2) indices
  · intro name sym hmem hok
    rw [get_market_overview, lookup_overview_mem yf indices indices_names_nodup name sym hmem]
    simp [overviewRow, hok]
  · intro name sym e hmem herr
    rw [get_market_overview, lookup_overview_mem yf indices indices_names_nodup name sym hmem]
    simp [overviewRow, herr]
  · intro name j hmem
    rw [get_market_overview] at hmem
    obtain ⟨p, hp, hrow⟩ := List.mem_filterMap.mp hmem
    unfold overviewRow at hrow
    dsimp only at hrow
    repeat' split at hrow
    all_goals first
      | (rw [Option.some.injEq, Prod.ext_iff] at hrow
         exact Or.inl ⟨_, hrow.2.symm⟩)
      | (rw [Option.some.injEq, Prod.ext_iff] at hrow
         exact Or.inr ⟨_, _, hrow.2.symm⟩)
      | exact absurd hrow (by simp)
  · intro name sym c hmem hok hc
    rw [get_market_overview, lookup_overview_mem yf indices indices_names_nodup name sym hmem]
    simp [overviewRow, hok, hc, sub_self, zero_div, zero_mul, round2_zero]

/-- Witness for overview_entries: with the concrete oracle, the S&P row
is omitted, the NASDAQ row is its fetch error, and the one-day NVIDIA row
has zero change. -/
theorem overview_entries_witness :
    (get_market_overview yfOverviewW).lookup "S&P 500" = none ∧
    (get_market_overview yfOverviewW).lookup "NASDAQ" = some (.jobj [("error", .jstr "boom")]) ∧
    (get_market_overview yfOverviewW).lookup "NVIDIA" =
      some (.jobj [("current", .jnum (round2 10)), ("change", .jnum 0),
                   ("change_percent", .jnum 0)]) :=
  ⟨(overview_entries yfOverviewW).2.2.1 "S&P 500" "^GSPC" (by decide) rfl,
   (overview_entries yfOverviewW).2.2.2.1 "NASDAQ" "^IXIC" "boom" (by decide) rfl,
   (overview_entries yfOverviewW).2.2.2.2.2 "NVIDIA" "NVDA" 10 (by decide) rfl (by norm_num)⟩

/-! ## Helper lemmas about the run-loop -/

/-- A successful batch build yields one output per pending call, echoing
each call id unchanged in order. -/
theorem buildOutputs_ok (env : Env) :
    ∀ (calls : List ToolCall) (outs : List ToolOutput),
      (buildOutputs env calls).2 = .ok outs →
      outs.length = calls.length ∧
      outs.map (fun o => o.tool_call_id) = calls.map (fun c => c.id) := by
  intro calls
  induction calls with
  | nil =>
    intro outs h
    simp only [buildOutputs] at h
    injection h with h
    subst h
    simp
  | cons tc rest ih =>
    intro outs h
    simp only [buildOutputs] at h
    cases hl : env.loads tc.arguments with
    | error e => rw [hl] at h; exact absurd h (by simp)
    | ok args =>
      rw [hl] at h
      dsimp only at h
      cases hr : (buildOutputs env rest).2 with
      | error e => rw [hr] at h; exact absurd h (by simp [Except.map])
      | ok outs' =>
        rw [hr] at h
        simp only [Except.map, Except.ok.injEq] at h
        subst h
        have := ih outs' hr
        simp [this.1, this.2]

/-- Every event recorded while building a batch is a handler invocation. -/
theorem buildOutputs_events (env : Env) :
    ∀ (calls : List ToolCall) (ev : Event), ev ∈ (buildOutputs env calls).1 →
      ∃ f c, ev = .handleEv f c := by
  intro calls
  induction calls with
  | nil => intro ev h; exact absurd h (by simp [buildOutputs])
  | cons tc rest ih =>
    intro ev h
    simp only [buildOutputs] at h
    cases hl : env.loads tc.arguments with
    | error e => rw [hl] at h; simp at h
    | ok args =>
      rw [hl] at h
      dsimp only at h
      rcases List.mem_cons.mp h with heq | hmem
      · exact ⟨tc.fname, tc.id, heq⟩
      · exact ih ev hmem

/-- If the arguments of some call are malformed and every call before it
parses, the batch build stops at it: the handlers before it ran, no
output list is produced, and its parse error is the one raised. -/
theorem buildOutputs_error (env : Env) :
    ∀ (pre : List ToolCall) (tc : ToolCall) (post : List ToolCall) (e : String),
      (∀ c ∈ pre, ∃ j, env.loads c.arguments = .ok j) →
      env.loads tc.arguments = .error e →
      (buildOutputs env (pre ++ tc :: post)).2 = .error e := by
  intro pre
  induction pre with
  | nil =>
    intro tc post e _ he
    simp only [List.nil_append, buildOutputs]
    rw [he]
  | cons c rest ih =>
    intro tc post e hpre he
    obtain ⟨j, hj⟩ := hpre c (List.mem_cons_self c rest)
    rw [List.cons_append]
    simp only [buildOutputs]
    rw [hj]
    dsimp only
    rw [ih tc post e (fun c' hc' => hpre c' (List.mem_cons_of_mem c hc')) he]
    rfl

/-- A run whose status is outside the active vocabulary leaves the loop
immediately, untouched. -/
theorem runLoop_not_active (env : Env) (run : RunObj) (script : List (Except String RunObj))
    (h : ¬(run.status = .queued ∨ run.status = .in_progress ∨ run.status = .requires_action)) :
    runLoop env run script = ([], .finished run) := by
  cases script with
  | nil => simp only [runLoop]; rw [if_neg h]
  | cons resp rest => simp only [runLoop]; rw [if_neg h]

/-- One requires_action step: the built batch is submitted and the loop
continues on the returned run. -/
theorem runLoop_submit_step (env : Env) (run run2 : RunObj)
    (rest : List (Except String RunObj)) (evs : List Event) (outs : List ToolOutput)
    (hs : run.status = .requires_action)
    (hb : buildOutputs env run.tool_calls = (evs, .ok outs)) :
    runLoop env run (.ok run2 :: rest) =
      (evs ++ .submitEv outs :: (runLoop env run2 rest).1, (runLoop env run2 rest).2) := by
  simp only [runLoop]
  rw [if_pos (Or.inr (Or.inr hs)), if_pos hs, hb]

/-- One polling step: sleep one unit, re-fetch, continue on the fetched
run. -/
theorem runLoop_poll_step (env : Env) (run run2 : RunObj)
    (rest : List (Except String RunObj))
    (hs : run.status = .queued ∨ run.status = .in_progress) :
    runLoop env run (.ok run2 :: rest) =
      (.sleepEv 1 :: .retrieveEv :: (runLoop env run2 rest).1, (runLoop env run2 rest).2) := by
  simp only [runLoop]
  have hra : ¬ run.status = .requires_action := by
    rcases hs with h | h <;> simp [h]
  rw [if_pos (by tauto), if_neg hra]

/-- The events handed to the body stay in its trace. -/
theorem chatBody_evs0 (env : Env) (aid m tid : String) (evs0 : List Event) :
    ∀ ev ∈ evs0, ev ∈ (chatBody env aid m tid evs0).2 := by
  unfold chatBody
  dsimp only
  repeat' split
  all_goals intro ev hev
  all_goals first
    | exact hev
    | exact List.mem_append.mpr (Or.inl (List.mem_append.mpr (Or.inl hev)))
    | exact List.mem_append.mpr (Or.inl hev)

/-- When the loop leaves normally, the run it leaves with is terminal:
its status is outside the active vocabulary. -/
theorem runLoop_finished_not_active (env : Env) :
    ∀ (script : List (Except String RunObj)) (run r : RunObj),
      (runLoop env run script).2 = .finished r →
      ¬(r.status = .queued ∨ r.status = .in_progress ∨ r.status = .requires_action) := by
  intro script
  induction script with
  | nil =>
    intro run r h
    simp only [runLoop] at h
    by_cases hact : run.status = .queued ∨ run.status = .in_progress ∨
        run.status = .requires_action
    · rw [if_pos hact] at h
      by_cases hra : run.status = .requires_action
      · rw [if_pos hra] at h
        rcases hb : buildOutputs env run.tool_calls with ⟨evs, res⟩
        rw [hb] at h
        cases res with
        | error e => exact absurd h (by simp)
        | ok outs => exact absurd h (by simp)
      · rw [if_neg hra] at h
        exact absurd h (by simp)
    · rw [if_neg hact] at h
      injection h with h
      subst h
      exact hact
  | cons resp rest ih =>
    intro run r h
    simp only [runLoop] at h
    by_cases hact : run.status = .queued ∨ run.status = .in_progress ∨
        run.status = .requires_action
    · rw [if_pos hact] at h
      by_cases hra : run.status = .requires_action
      · rw [if_pos hra] at h
        rcases hb : buildOutputs env run.tool_calls with ⟨evs, res⟩
        rw [hb] at h
        cases res with
        | error e => exact absurd h (by simp)
        | ok outs =>
          cases resp with
          | error e => exact absurd h (by simp)
          | ok run2 =>
            dsimp only at h
            exact ih run2 r h
      · rw [if_neg hra] at h
        cases resp with
        | error e => exact absurd h (by simp)
        | ok run2 =>
          dsimp only at h
          exact ih run2 r h
    · rw [if_neg hact] at h
      injection h with h
      subst h
      exact hact

/-- If somewhere in the scripted responses a remote call fails or a
terminal run is returned, the observation is not cut off: the loop
reaches an exception or a terminal run within the script. -/
theorem runLoop_no_starve (env : Env) :
    ∀ (script : List (Except String RunObj)) (run : RunObj),
      (∃ resp ∈ script, (∃ e, resp = .error e) ∨
         ∃ r2, resp = .ok r2 ∧
           ¬(r2.status = .queued ∨ r2.status = .in_progress ∨
             r2.status = .requires_action)) →
      (runLoop env run script).2 ≠ .starved := by
  intro script
  induction script with
  | nil =>
    intro run hex
    obtain ⟨resp, hmem, _⟩ := hex
    exact absurd hmem (by simp)
  | cons resp0 rest ih =>
    intro run hex
    by_cases hact : run.status = .queued ∨ run.status = .in_progress ∨
        run.status = .requires_action
    · have hcont : ∀ run2 : RunObj, resp0 = .ok run2 →
          (runLoop env run2 rest).2 ≠ .starved := by
        intro run2 hresp
        obtain ⟨resp, hmem, hbad⟩ := hex
        rcases List.mem_cons.mp hmem with heq | hmem'
        · subst heq
          rcases hbad with ⟨e, habs⟩ | ⟨r2, hok, hterm⟩
          · rw [habs] at hresp; exact absurd hresp (by simp)
          · rw [hok] at hresp
            injection hresp with hresp
            subst hresp
            rw [runLoop_not_active env r2 rest hterm]
            simp
        · exact ih run2 ⟨resp, hmem', hbad⟩
      simp only [runLoop]
      rw [if_pos hact]
      by_cases hra : run.status = .requires_action
      · rw [if_pos hra]
        rcases hb : buildOutputs env run.tool_calls with ⟨evs, res⟩
        cases res with
        | error e => simp
        | ok outs =>
          cases resp0 with
          | error e => simp
          | ok run2 =>
            dsimp only
            exact hcont run2 rfl
      · rw [if_neg hra]
        cases resp0 with
        | error e => simp
        | ok run2 =>
          dsimp only
          exact hcont run2 rfl
    · rw [runLoop_not_active env run _ hact]
      simp

/-- The loop records only sleeps, re-fetches, handler invocations and
submissions: never a thread creation and never a message listing. -/
theorem runLoop_events (env : Env) :
    ∀ (script : List (Except String RunObj)) (run : RunObj) (ev : Event),
      ev ∈ (runLoop env run script).1 → ev ≠ .createThreadEv ∧ ev ≠ .listEv := by
  intro script
  induction script with
  | nil =>
    intro run ev h
    simp only [runLoop] at h
    by_cases hact : run.status = .queued ∨ run.status = .in_progress ∨
        run.status = .requires_action
    · rw [if_pos hact] at h
      by_cases hra : run.status = .requires_action
      · rw [if_pos hra] at h
        rcases hb : buildOutputs env run.tool_calls with ⟨evs, res⟩
        rw [hb] at h
        have hevs : ∀ e ∈ evs, ∃ f c, e = Event.handleEv f c := by
          intro e he
          exact buildOutputs_events env run.tool_calls e (by rw [hb]; exact he)
        cases res with
        | error e =>
          obtain ⟨f, c, rfl⟩ := hevs ev h
          exact ⟨by simp, by simp⟩
        | ok outs =>
          rcases List.mem_append.mp h with hm | hm
          · obtain ⟨f, c, rfl⟩ := hevs ev hm
            exact ⟨by simp, by simp⟩
          · rcases List.mem_cons.mp hm with rfl | habs
            · exact ⟨by simp, by simp⟩
            · exact absurd habs (by simp)
      · rw [if_neg hra] at h
        rcases List.mem_cons.mp h with rfl | hm
        · exact ⟨by simp, by simp⟩
        · rcases List.mem_cons.mp hm with rfl | habs
          · exact ⟨by simp, by simp⟩
          · exact absurd habs (by simp)
    · rw [if_neg hact] at h
      exact absurd h (by simp)
  | cons resp rest ih =>
    intro run ev h
    simp only [runLoop] at h
    by_cases hact : run.status = .queued ∨ run.status = .in_progress ∨
        run.status = .requires_action
    · rw [if_pos hact] at h
      by_cases hra : run.status = .requires_action
      · rw [if_pos hra] at h
        rcases hb : buildOutputs env run.tool_calls with ⟨evs, res⟩
        rw [hb] at h
        have hevs : ∀ e ∈ evs, ∃ f c, e = Event.handleEv f c := by
          intro e he
          exact buildOutputs_events env run.tool_calls e (by rw [hb]; exact he)
        cases res with
        | error e =>
          obtain ⟨f, c, rfl⟩ := hevs ev h
          exact ⟨by simp, by simp⟩
        | ok outs =>
          cases resp with
          | error e =>
            rcases List.mem_append.mp h with hm | hm
            · obtain ⟨f, c, rfl⟩ := hevs ev hm
              exact ⟨by simp, by simp⟩
            · rcases List.mem_cons.mp hm with rfl | habs
              · exact ⟨by simp, by simp⟩
              · exact absurd habs (by simp)
          | ok run2 =>
            dsimp only at h
            rcases List.mem_append.mp h with hm | hm
            · obtain ⟨f, c, rfl⟩ := hevs ev hm
              exact ⟨by simp, by simp⟩
            · rcases List.mem_cons.mp hm with rfl | hm2
              · exact ⟨by simp, by simp⟩
              · exact ih run2 ev hm2
      · rw [if_neg hra] at h
        cases resp with
        | error e =>
          rcases List.mem_cons.mp h with rfl | hm
          · exact ⟨by simp, by simp⟩
          · rcases List.mem_cons.mp hm with rfl | habs
            · exact ⟨by simp, by simp⟩
            · exact absurd habs (by simp)
        | ok run2 =>
          dsimp only at h
          rcases List.mem_cons.mp h with rfl | hm
          · exact ⟨by simp, by simp⟩
          · rcases List.mem_cons.mp hm with rfl | hm2
            · exact ⟨by simp, by simp⟩
            · exact ih run2 ev hm2
    · rw [if_neg hact] at h
      exact absurd h (by simp)

/-- Whatever happens inside the body, its outcome carries the thread id
it started with: a normal answer with that id, an exception that will be
reported with that id, or a cut-off observation. -/
theorem chatBody_tid (env : Env) (aid m tid : String) (evs0 : List Event) :
    (∃ resp, (chatBody env aid m tid evs0).1 = .ans resp tid) ∨
    (∃ e, (chatBody env aid m tid evs0).1 = .raisedI e (some tid)) ∨
    (chatBody env aid m tid evs0).1 = .runningI := by
  unfold chatBody
  dsimp only
  repeat' split
  all_goals first
    | exact Or.inl ⟨_, rfl⟩
    | exact Or.inr (Or.inl ⟨_, rfl⟩)
    | exact Or.inr (Or.inr rfl)

/-- The body never creates a thread: its trace adds no thread-creation
event beyond those it was handed. -/
theorem chatBody_no_createThread (env : Env) (aid m tid : String) (evs0 : List Event)
    (h0 : Event.createThreadEv ∉ evs0) :
    Event.createThreadEv ∉ (chatBody env aid m tid evs0).2 := by
  unfold chatBody
  dsimp only
  repeat' split
  all_goals intro hmem
  all_goals first
    | exact h0 hmem
    | (rcases List.mem_append.mp hmem with hm | hm
       · rcases List.mem_append.mp hm with hm2 | hm2
         · exact h0 hm2
         · exact (runLoop_events env env.script _ _ hm2).1 rfl
       · simp at hm)
    | (rcases List.mem_append.mp hmem with hm | hm
       · exact h0 hm
       · exact (runLoop_events env env.script _ _ hm).1 rfl)

/-! ## Claims about the run-loop -/

/-- C2: when the batch of a requires_action run is built successfully, the
submission sends exactly one ToolResult per pending call, echoing each
pending call id unchanged and in order, regardless of handler outcomes,
and the whole batch goes out in the single submit event. -/
theorem submission_batch_complete (env : Env) (run run2 : RunObj)
    (rest : List (Except String RunObj)) (evs : List Event) (outs : List ToolOutput)
    (hs : run.status = .requires_action)
    (hb : buildOutputs env run.tool_calls = (evs, .ok outs)) :
    outs.length = run.tool_calls.length ∧
    outs.map (fun o => o.tool_call_id) = run.tool_calls.map (fun c => c.id) ∧
    (runLoop env run (.ok run2 :: rest)).1 =
      evs ++ .submitEv outs :: (runLoop env run2 rest).1 := by
  have h2 := buildOutputs_ok env run.tool_calls outs (by rw [hb])
  refine ⟨h2.1, h2.2, ?_⟩
  rw [runLoop_submit_step env run run2 rest evs outs hs hb]

/-- Witness for submission_batch_complete: two pending calls (one
unknown tool, one stock call whose provider is down) still produce a
two-output batch with both call ids. -/
theorem submission_batch_complete_witness :
    ([{ tool_call_id := "c1",
        output := (Json.jobj [("error", Json.jstr "Function not implemented")]).dumps },
      { tool_call_id := "c2",
        output := (Json.jobj
          [("error", Json.jstr "Could not fetch data for : net down")]).dumps }] :
        List ToolOutput).length = runTwoCallsW.tool_calls.length ∧
    ([{ tool_call_id := "c1",
        output := (Json.jobj [("error", Json.jstr "Function not implemented")]).dumps },
      { tool_call_id := "c2",
        output := (Json.jobj
          [("error", Json.jstr "Could not fetch data for : net down")]).dumps }] :
        List ToolOutput).map (fun o => o.tool_call_id) =
      runTwoCallsW.tool_calls.map (fun c => c.id) ∧
    (runLoop envTwoW runTwoCallsW (.ok runCompletedW :: [])).1 =
      [Event.handleEv "get_weather" "c1", Event.handleEv "get_stock_data" "c2"] ++
        Event.submitEv
          [{ tool_call_id := "c1",
             output := (Json.jobj [("error", Json.jstr "Function not implemented")]).dumps },
           { tool_call_id := "c2",
             output := (Json.jobj
               [("error", Json.jstr "Could not fetch data for : net down")]).dumps }] ::
          (runLoop envTwoW runCompletedW []).1 :=
  submission_batch_complete envTwoW runTwoCallsW runCompletedW []
    [Event.handleEv "get_weather" "c1", Event.handleEv "get_stock_data" "c2"]
    [{ tool_call_id := "c1",
       output := (Json.jobj [("error", Json.jstr "Function not implemented")]).dumps },
     { tool_call_id := "c2",
       output := (Json.jobj
         [("error", Json.jstr "Could not fetch data for : net down")]).dumps }]
    rfl rfl

/-- C7: a pending call to a tool that is neither get_stock_data nor
get_market_overview produces exactly the Function-not-implemented error
JSON, the result is still submitted under the id of that call, and the loop
continues on the submission response instead of aborting. -/
theorem unknown_tool_contained (env : Env) (f : String) (args : Json)
    (run run2 : RunObj) (rest : List (Except String RunObj)) (tc : ToolCall) (a : Json)
    (hf1 : f ≠ "get_stock_data") (hf2 : f ≠ "get_market_overview") :
    handle_function_call env f args = "\x7b\"error\": \"Function not implemented\"\x7d" ∧
    (run.status = .requires_action → run.tool_calls = [tc] → tc.fname = f →
      env.loads tc.arguments = .ok a →
      (runLoop env run (.ok run2 :: rest)).1 =
        .handleEv f tc.id ::
          .submitEv [{ tool_call_id := tc.id, output := "\x7b\"error\": \"Function not implemented\"\x7d" }] ::
          (runLoop env run2 rest).1 ∧
      (runLoop env run (.ok run2 :: rest)).2 = (runLoop env run2 rest).2) := by
  have key : ∀ b : Json, handle_function_call env f b =
      "\x7b\"error\": \"Function not implemented\"\x7d" := by
    intro b
    unfold handle_function_call
    rw [if_neg hf1, if_neg hf2]
    rfl
  refine ⟨key args, ?_⟩
  intro hs htc hname hload
  have hb : buildOutputs env run.tool_calls =
      ([.handleEv f tc.id],
       .ok [{ tool_call_id := tc.id, output := "\x7b\"error\": \"Function not implemented\"\x7d" }]) := by
    rw [htc]
    simp only [buildOutputs]
    rw [hload]
    dsimp only
    rw [hname, key a]
    rfl
  rw [runLoop_submit_step env run run2 rest _ _ hs hb]
  constructor
  · simp
  · rfl

/-- Witness for unknown_tool_contained at the concrete get_weather call. -/
theorem unknown_tool_contained_witness :
    handle_function_call envUnknownW "get_weather" (Json.jobj []) =
      "\x7b\"error\": \"Function not implemented\"\x7d" ∧
    (runLoop envUnknownW runUnknownW (.ok runCompletedW :: [])).1 =
      Event.handleEv "get_weather" tcUnknownW.id ::
        Event.submitEv [{ tool_call_id := tcUnknownW.id, output := "\x7b\"error\": \"Function not implemented\"\x7d" }] ::
        (runLoop envUnknownW runCompletedW []).1 ∧
    (runLoop envUnknownW runUnknownW (.ok runCompletedW :: [])).2 =
      (runLoop envUnknownW runCompletedW []).2 := by
  have h := unknown_tool_contained envUnknownW "get_weather" (Json.jobj [])
    runUnknownW runCompletedW [] tcUnknownW (Json.jobj [])
    (by decide) (by decide)
  exact ⟨h.1, h.2 rfl rfl rfl rfl⟩

/-- C1 (amended): a malformed arguments payload is not contained
per-call: when the loop reaches the first pending call whose arguments do
not parse, json.loads raises, no ToolResult is produced for any call of
the batch, nothing is submitted, and the exception aborts the run. -/
theorem malformed_args_abort (env : Env) (run : RunObj)
    (script : List (Except String RunObj))
    (pre post : List ToolCall) (tc : ToolCall) (e : String)
    (hs : run.status = .requires_action)
    (hcalls : run.tool_calls = pre ++ tc :: post)
    (hpre : ∀ c ∈ pre, ∃ j, env.loads c.arguments = .ok j)
    (he : env.loads tc.arguments = .error e) :
    (runLoop env run script).2 = .raised e ∧
    ∀ outs, Event.submitEv outs ∉ (runLoop env run script).1 := by
  have hb2 : (buildOutputs env run.tool_calls).2 = .error e := by
    rw [hcalls]
    exact buildOutputs_error env pre tc post e hpre he
  rcases hbo : buildOutputs env run.tool_calls with ⟨evs, res⟩
  rw [hbo] at hb2
  subst hb2
  have hloop : runLoop env run script = (evs, .raised e) := by
    cases script with
    | nil =>
      simp only [runLoop]
      rw [if_pos (Or.inr (Or.inr hs)), if_pos hs, hbo]
    | cons r t =>
      simp only [runLoop]
      rw [if_pos (Or.inr (Or.inr hs)), if_pos hs, hbo]
  rw [hloop]
  refine ⟨rfl, ?_⟩
  intro outs hmem
  obtain ⟨f, c, habs⟩ := buildOutputs_events env run.tool_calls (Event.submitEv outs)
    (by rw [hbo]; exact hmem)
  exact Event.noConfusion habs

/-- Counterexample to C1 as stated: with a requires_action run whose one
pending call carries malformed arguments JSON, the whole chat call
aborts with the parse error as its final answer and its trace holds only
the thread creation: no handler ran, no ToolResult was built, and no
batch was submitted. -/
theorem malformed_args_abort_cx :
    chat_with_assistant envMalformedW "a1" "hi" none =
      .returns ("Error: Expecting value: line 1 column 1 (char 0)", some "t1") ∧
    (chatInner envMalformedW "a1" "hi" none).2 = [Event.createThreadEv] :=
  ⟨rfl, rfl⟩

/-- C5: after a submission the loop adopts the returned run and keeps
iterating; while the status is queued or in_progress it sleeps one unit
and re-fetches; it only ever leaves the loop on a terminal run; and any
scripted failure or terminal response prevents the observation from
being cut off. -/
theorem run_loop_protocol (env : Env) :
    (∀ run run2 rest evs outs,
       run.status = .requires_action →
       buildOutputs env run.tool_calls = (evs, .ok outs) →
       runLoop env run (.ok run2 :: rest) =
         (evs ++ .submitEv outs :: (runLoop env run2 rest).1,
          (runLoop env run2 rest).2)) ∧
    (∀ run run2 rest,
       (run.status = .queued ∨ run.status = .in_progress) →
       runLoop env run (.ok run2 :: rest) =
         (.sleepEv 1 :: .retrieveEv :: (runLoop env run2 rest).1,
          (runLoop env run2 rest).2)) ∧
    (∀ script run r, (runLoop env run script).2 = .finished r →
       ¬(r.status = .queued ∨ r.status = .in_progress ∨
         r.status = .requires_action)) ∧
    (∀ script run,
       (∃ resp ∈ script, (∃ e, resp = .error e) ∨
          ∃ r2, resp = .ok r2 ∧
            ¬(r2.status = .queued ∨ r2.status = .in_progress ∨
              r2.status = .requires_action)) →
       (runLoop env run script).2 ≠ .starved) :=
  ⟨fun run run2 rest evs outs hs hb => runLoop_submit_step env run run2 rest evs outs hs hb,
   fun run run2 rest hs => runLoop_poll_step env run run2 rest hs,
   runLoop_finished_not_active env,
   runLoop_no_starve env⟩

/-- Witness for run_loop_protocol: a queued run polls once then
continues, and a script holding a completed run is never cut off. -/
theorem run_loop_protocol_witness :
    runLoop baseEnvW runQueuedW (.ok runCompletedW :: []) =
      (.sleepEv 1 :: .retrieveEv :: (runLoop baseEnvW runCompletedW []).1,
       (runLoop baseEnvW runCompletedW []).2) ∧
    (runLoop baseEnvW runQueuedW [.ok runCompletedW]).2 ≠ .starved :=
  ⟨(run_loop_protocol baseEnvW).2.1 runQueuedW runCompletedW [] (Or.inl rfl),
   (run_loop_protocol baseEnvW).2.2.2 [.ok runCompletedW] runQueuedW
     ⟨.ok runCompletedW, by simp, Or.inr ⟨runCompletedW, rfl, by decide⟩⟩⟩

/-- C4: a run whose status leaves the active-or-completed vocabulary
makes the loop exit with a failure text embedding that status, with no
message-log read and no tool handler invocation. -/
theorem nonterminal_status_failure (env : Env) (aid m : String) (t0 : Option String)
    (tid : String) (run : RunObj)
    (hth : (if isFalsy t0 then env.threads_create else .ok (t0.getD "")) = .ok tid)
    (hmsg : env.messages_create tid m = .ok ())
    (hrun : env.runs_create tid aid = .ok run)
    (hact : ¬(run.status = .queued ∨ run.status = .in_progress ∨
        run.status = .requires_action))
    (hnc : run.status ≠ .completed) :
    chat_with_assistant env aid m t0 =
      .returns ("Error: Run failed with status " ++ run.status.toStr, some tid) ∧
    (∀ f c, Event.handleEv f c ∉ (chatInner env aid m t0).2) ∧
    Event.listEv ∉ (chatInner env aid m t0).2 := by
  have hbody : ∀ evs0, chatBody env aid m tid evs0 =
      (.ans ("Error: Run failed with status " ++ run.status.toStr) tid, evs0 ++ []) := by
    intro evs0
    unfold chatBody
    rw [hmsg]
    dsimp only
    rw [hrun]
    dsimp only
    rw [runLoop_not_active env run env.script hact]
    dsimp only
    rw [if_neg hnc]
  have hinner : (chatInner env aid m t0).1 =
      .ans ("Error: Run failed with status " ++ run.status.toStr) tid ∧
      ((chatInner env aid m t0).2 = [] ∨
       (chatInner env aid m t0).2 = [Event.createThreadEv]) := by
    unfold chatInner
    by_cases hf : isFalsy t0 = true
    · rw [if_pos hf] at hth
      rw [if_pos hf, hth]
      dsimp only
      rw [hbody [Event.createThreadEv]]
      simp
    · rw [if_neg hf] at hth
      injection hth with hth
      rw [if_neg hf, hth, hbody []]
      simp
  refine ⟨?_, ?_, ?_⟩
  · unfold chat_with_assistant
    rw [hinner.1]
  · intro f c hmem
    rcases hinner.2 with h | h <;> rw [h] at hmem <;> simp at hmem
  · intro hmem
    rcases hinner.2 with h | h <;> rw [h] at hmem <;> simp at hmem

/-- Witness for nonterminal_status_failure: a run failed immediately
after creation yields the failure text and an empty-but-thread-creation
trace. -/
theorem nonterminal_status_failure_witness :
    chat_with_assistant envFailedW "a1" "hi" none =
      .returns ("Error: Run failed with status " ++ runFailedW.status.toStr, some "t1") ∧
    (∀ f c, Event.handleEv f c ∉ (chatInner envFailedW "a1" "hi" none).2) ∧
    Event.listEv ∉ (chatInner envFailedW "a1" "hi" none).2 :=
  nonterminal_status_failure envFailedW "a1" "hi" none "t1" runFailedW
    rfl rfl rfl (by decide) (by decide)

/-- C3: the chat operation never raises to its caller: an exception
anywhere in the body is converted to the textual Error result paired
with the thread id current at the raise, a normal completion returns the
answer with its thread id, and every call either returns such a pair or
is still awaiting the remote service. -/
theorem chat_error_conversion (env : Env) (aid m : String) (t0 : Option String) :
    (∀ e tid, (chatInner env aid m t0).1 = .raisedI e tid →
       chat_with_assistant env aid m t0 = .returns ("Error: " ++ e, tid)) ∧
    (∀ resp tid, (chatInner env aid m t0).1 = .ans resp tid →
       chat_with_assistant env aid m t0 = .returns (resp, some tid)) ∧
    (chat_with_assistant env aid m t0 = .running ∨
     ∃ p, chat_with_assistant env aid m t0 = .returns p) := by
  refine ⟨?_, ?_, ?_⟩
  · intro e tid h
    unfold chat_with_assistant
    rw [h]
  · intro resp tid h
    unfold chat_with_assistant
    rw [h]
  · unfold chat_with_assistant
    cases (chatInner env aid m t0).1 with
    | ans r tid => exact Or.inr ⟨_, rfl⟩
    | raisedI e tid => exact Or.inr ⟨_, rfl⟩
    | runningI => exact Or.inl rfl

/-- Witness for chat_error_conversion: a failing message post comes back
as a textual error pair. -/
theorem chat_error_conversion_witness :
    chat_with_assistant envMsgFailW "a1" "hi" none = .returns ("Error: " ++ "boom", some "t1") :=
  (chat_error_conversion envMsgFailW "a1" "hi" none).1 "boom" (some "t1") rfl

/-- C6: a conversation id is created lazily on the first message (and
every returned outcome carries it), and a second call made with a
non-empty conversation id never creates a thread and returns that same
id unchanged. -/
theorem thread_id_reuse (env : Env) (aid m1 m2 : String) :
    (∀ t, env.threads_create = .ok t →
       ((chat_with_assistant env aid m1 none = .running ∨
         ∃ r, chat_with_assistant env aid m1 none = .returns (r, some t)) ∧
        Event.createThreadEv ∈ (chatInner env aid m1 none).2)) ∧
    (∀ tid, tid ≠ "" →
       (Event.createThreadEv ∉ (chatInner env aid m2 (some tid)).2 ∧
        (chat_with_assistant env aid m2 (some tid) = .running ∨
         ∃ r, chat_with_assistant env aid m2 (some tid) = .returns (r, some tid)))) := by
  constructor
  · intro t ht
    have hinner : chatInner env aid m1 none = chatBody env aid m1 t [Event.createThreadEv] := by
      unfold chatInner
      rw [if_pos (show isFalsy (none : Option String) = true from rfl), ht]
    constructor
    · rcases chatBody_tid env aid m1 t [Event.createThreadEv] with ⟨r, hr⟩ | ⟨e, hr⟩ | hr <;>
        unfold chat_with_assistant <;> rw [hinner, hr]
      · exact Or.inr ⟨_, rfl⟩
      · exact Or.inr ⟨_, rfl⟩
      · exact Or.inl rfl
    · rw [hinner]
      exact chatBody_evs0 env aid m1 t [Event.createThreadEv] Event.createThreadEv
        (by simp)
  · intro tid htid
    have hfalsy : isFalsy (some tid) = false := by
      cases h : tid.isEmpty with
      | true => exact absurd ((String.isEmpty_iff tid).mp h) htid
      | false => simpa [isFalsy] using h
    have hinner : chatInner env aid m2 (some tid) = chatBody env aid m2 tid [] := by
      unfold chatInner
      rw [if_neg (by simp [hfalsy])]
      rfl
    constructor
    · rw [hinner]
      exact chatBody_no_createThread env aid m2 tid [] (by simp)
    · rcases chatBody_tid env aid m2 tid [] with ⟨r, hr⟩ | ⟨e, hr⟩ | hr <;>
        unfold chat_with_assistant <;> rw [hinner, hr]
      · exact Or.inr ⟨_, rfl⟩
      · exact Or.inr ⟨_, rfl⟩
      · exact Or.inl rfl

/-- Witness for thread_id_reuse at the base environment and the id it
hands out. -/
theorem thread_id_reuse_witness :
    ((chat_with_assistant baseEnvW "a1" "hello" none = .running ∨
      ∃ r, chat_with_assistant baseEnvW "a1" "hello" none = .returns (r, some "t1")) ∧
     Event.createThreadEv ∈ (chatInner baseEnvW "a1" "hello" none).2) ∧
    (Event.createThreadEv ∉ (chatInner baseEnvW "a1" "again" (some "t1")).2 ∧
     (chat_with_assistant baseEnvW "a1" "again" (some "t1") = .running ∨
      ∃ r, chat_with_assistant baseEnvW "a1" "again" (some "t1") = .returns (r, some "t1"))) :=
  ⟨(thread_id_reuse baseEnvW "a1" "hello" "again").1 "t1" rfl,
   (thread_id_reuse baseEnvW "a1" "hello" "again").2 "t1" (by decide)⟩

/-- Witness for malformed_args_abort at the concrete malformed call. -/
theorem malformed_args_abort_witness :
    (runLoop envMalformedW runBadW [.ok runCompletedW]).2 =
      .raised "Expecting value: line 1 column 1 (char 0)" ∧
    ∀ outs, Event.submitEv outs ∉ (runLoop envMalformedW runBadW [.ok runCompletedW]).1 :=
  malformed_args_abort envMalformedW runBadW [.ok runCompletedW] [] [] tcBadW
    "Expecting value: line 1 column 1 (char 0)" rfl rfl (by simp) rfl
